import Mathlib

/-
Shallow embedding of `djlib/primitives.py` (geometric primitives of the djlib
game-support library) and proofs about its containment / intersection
algorithms.

Numbers: Python floats are modelled as exact numbers — rationals (`ℚ`) for all
stored coordinates, with real-valued (`ℝ`) square roots appearing in the
statements.  A comparison `sqrt s <= r` computed by the source is embedded as
the exactly equivalent rational test `0 <= r ∧ s <= r*r` (and `sqrt s < r` as
`0 < r ∧ s < r*r`); the bridge lemmas `distLT_iff` / `distLE_iff` prove these
encodings agree with `Real.sqrt`.
-/

namespace DJLib

/-- Two-dimensional instance of `Vector` (primitives.py line 19): the geometry
classes `Rectangle` and `Circle` always build and index two-component vectors
(`v[0]`, `v[1]`, alias `x`, `y`). -/
structure V2 where
  x : ℚ
  y : ℚ
deriving DecidableEq, Repr

/-- Componentwise sum, `Vector.__add__` (line 26). -/
instance : Add V2 := ⟨fun a b => ⟨a.x + b.x, a.y + b.y⟩⟩

/-- Componentwise difference, `Vector.__sub__` (line 34). -/
instance : Sub V2 := ⟨fun a b => ⟨a.x - b.x, a.y - b.y⟩⟩

theorem V2.add_def (a b : V2) : a + b = ⟨a.x + b.x, a.y + b.y⟩ := rfl

theorem V2.sub_def (a b : V2) : a - b = ⟨a.x - b.x, a.y - b.y⟩ := rfl

/-- Squared Euclidean distance: `Vector.distanceApart` (line 116) is
`sqrt (sqDist p q)`; the square root is applied in statements, via
`Real.sqrt`. -/
def V2.sqDist (p q : V2) : ℚ :=
  (p.x - q.x) * (p.x - q.x) + (p.y - q.y) * (p.y - q.y)

theorem V2.sqDist_nonneg (p q : V2) : 0 ≤ V2.sqDist p q :=
  add_nonneg (mul_self_nonneg _) (mul_self_nonneg _)

/-- Exact decision of the comparison `p.distanceApart(q) < r`, i.e. of
`Real.sqrt (sqDist p q) < r` (see `distLT_iff`). -/
def distLT (p q : V2) (r : ℚ) : Bool :=
  decide (0 < r ∧ V2.sqDist p q < r * r)

/-- Exact decision of the comparison `(p - q).length() <= r`, i.e. of
`Real.sqrt (sqDist p q) ≤ r` (see `distLE_iff`). -/
def distLE (p q : V2) (r : ℚ) : Bool :=
  decide (0 ≤ r ∧ V2.sqDist p q ≤ r * r)

/-- Axis-aligned rectangle: `Rectangle.__init__` (line 248) stores a top-left
anchor `pos` and a `size` vector. -/
structure Rectangle where
  pos : V2
  size : V2
deriving DecidableEq, Repr

/-- Circle: `Circle.__init__` (line 362) stores a center `pos` and a scalar
`radius`. -/
structure Circle where
  pos : V2
  radius : ℚ
deriving DecidableEq, Repr

/-- Runtime kind of the operand of `contains`, mirroring the `isinstance`
dispatch chain (Vector, Rectangle, Circle, any other Entity, and any
non-Entity object, which the source rejects with `NotImplementedError`). -/
inductive Shape where
  | vec (v : V2)
  | rect (r : Rectangle)
  | circle (c : Circle)
  | ent (pos : V2)
  | unknown
deriving DecidableEq

/-- True for the operand kinds handled by the dispatch chains of
`Rectangle.contains` and `Circle.contains`: Vector, Rectangle, Circle and
generic Entity; false for any other kind. -/
def Shape.supported : Shape → Bool
  | .unknown => false
  | _ => true

namespace Rectangle

/-- Constructor helper `Rectangle.fromPoints` (line 231): a rectangle from its
top-left and bottom-right corners, size = `bottom_right - top_left`. -/
def fromPoints (top_left bottom_right : V2) : Rectangle :=
  ⟨top_left, bottom_right - top_left⟩

/-- Constructor helper `Rectangle.fromSides` (line 243). -/
def fromSides (left top right bottom : ℚ) : Rectangle :=
  ⟨⟨left, top⟩, ⟨right - left, bottom - top⟩⟩

/-- Attribute `left` of `Rectangle.__getattr__` (line 341). -/
def left (s : Rectangle) : ℚ := s.pos.x

/-- Attribute `top` of `Rectangle.__getattr__` (line 342). -/
def top (s : Rectangle) : ℚ := s.pos.y

/-- Attribute `right` of `Rectangle.__getattr__` (line 343). -/
def right (s : Rectangle) : ℚ := s.pos.x + s.size.x

/-- Attribute `bottom` of `Rectangle.__getattr__` (line 344). -/
def bottom (s : Rectangle) : ℚ := s.pos.y + s.size.y

/-- Vector branch of `Rectangle.contains` (lines 260-268): inclusive bounds
test against `pos` and `bottom_right = pos + size`. -/
def containsVec (s : Rectangle) (v : V2) : Bool :=
  let bottom_right := s.pos + s.size
  decide (v.x ≥ s.pos.x ∧ v.x ≤ bottom_right.x ∧ v.y ≥ s.pos.y ∧ v.y ≤ bottom_right.y)

/-- Rectangle branch of `Rectangle.contains` (lines 270-274): the recursive
`self.contains` calls there receive Vectors, hence resolve to the Vector
branch `containsVec`. -/
def containsRect (s other : Rectangle) : Bool :=
  s.containsVec other.pos && s.containsVec (other.pos + other.size)

/-- Method `Rectangle.corners` (line 294): top-left, top-right, bottom-left,
bottom-right, in source order. -/
def corners (s : Rectangle) : List V2 :=
  [s.pos, s.pos + ⟨s.size.x, 0⟩, s.pos + ⟨0, s.size.y⟩, s.pos + s.size]

/-- Circle branch of `Rectangle.contains` (lines 276-283): the center must be
inside, and the corner loop returns False as soon as a corner is strictly
closer to the center than the radius. -/
def containsCircle (s : Rectangle) (c : Circle) : Bool :=
  if s.containsVec c.pos then
    (s.corners).all fun corner => ! distLT c.pos corner c.radius
  else false

/-- Dispatcher `Rectangle.contains` (lines 260-289); `none` models the
`NotImplementedError` raised for unsupported kinds. -/
def contains (s : Rectangle) : Shape → Option Bool
  | .vec v => some (s.containsVec v)
  | .rect r => some (s.containsRect r)
  | .circle c => some (s.containsCircle c)
  | .ent p => some (s.containsVec p)
  | .unknown => none

/-- Method `Rectangle.intersects` (lines 309-319): corner-based approximate
test; the `rect.contains(corner)` calls receive Vectors. -/
def intersects (s rect : Rectangle) : Bool :=
  (s.corners).any (fun corner => rect.containsVec corner) ||
  (rect.corners).any (fun corner => s.containsVec corner)

/-- Method `Rectangle.intersect` (lines 300-307): `None` when `intersects` is
false, otherwise the overlap built with the source's conditional
expressions. -/
def intersect (s rect : Rectangle) : Option Rectangle :=
  if ! s.intersects rect then none
  else some (fromSides (if s.left ≥ rect.left then s.left else rect.left)
                       (if s.top ≥ rect.top then s.top else rect.top)
                       (if s.right < rect.right then s.right else rect.right)
                       (if s.bottom < rect.bottom then s.bottom else rect.bottom))

/-- Method `Rectangle.offset` (lines 321-323).  The source body is
`return Rect.fromPoints(self.pos-o, self.size+o)`; the name `Rect` is bound
nowhere in `primitives.py` (the class was renamed `Rectangle`, see the module
docstring and the trailing comment at line 347), so the call raises
`NameError` at runtime.  This embedding reads `Rect` as `Rectangle` to expose
the value the line would compute after that repair. -/
def offset (s : Rectangle) (offset_x offset_y : ℚ) : Rectangle :=
  let o : V2 := ⟨offset_x, offset_y⟩
  fromPoints (s.pos - o) (s.size + o)

end Rectangle

namespace Circle

/-- Vector branch of `Circle.contains` (lines 380-381):
`(self.pos - entity).length() <= self.radius`, embedded by its exact rational
decision. -/
def containsVec (c : Circle) (v : V2) : Bool :=
  distLE c.pos v c.radius

/-- Rectangle branch of `Circle.contains` (lines 383-384): only the top-left
corner and `pos + size` are checked, through the Vector branch. -/
def containsRect (c : Circle) (r : Rectangle) : Bool :=
  c.containsVec r.pos && c.containsVec (r.pos + r.size)

/-- Circle branch of `Circle.contains` (lines 386-389). -/
def containsCircle (c other : Circle) : Bool :=
  if c.radius > other.radius then distLT c.pos other.pos (c.radius - other.radius)
  else false

/-- Dispatcher `Circle.contains` (lines 378-395); `none` models the
`NotImplementedError` raised for unsupported kinds. -/
def contains (c : Circle) : Shape → Option Bool
  | .vec v => some (c.containsVec v)
  | .rect r => some (c.containsRect r)
  | .circle b => some (c.containsCircle b)
  | .ent p => some (c.containsVec p)
  | .unknown => none

end Circle

/-- Correctness of the exact encoding `distLT` of `distanceApart(q) < r`: the
rational test agrees with the real square-root comparison. -/
theorem distLT_iff (p q : V2) (r : ℚ) :
    distLT p q r = true ↔ Real.sqrt ((V2.sqDist p q : ℚ) : ℝ) < (r : ℝ) := by
  unfold distLT
  rw [decide_eq_true_eq]
  constructor
  · rintro ⟨hr, hd⟩
    have hr' : (0 : ℝ) < (r : ℝ) := by exact_mod_cast hr
    rw [Real.sqrt_lt' hr']
    rw [sq]
    exact_mod_cast hd
  · intro h
    have hr' : (0 : ℝ) < (r : ℝ) :=
      lt_of_le_of_lt (Real.sqrt_nonneg _) h
    have hr : (0 : ℚ) < r := by exact_mod_cast hr'
    refine ⟨hr, ?_⟩
    rw [Real.sqrt_lt' hr', sq] at h
    exact_mod_cast h

/-- Correctness of the exact encoding `distLE` of `(p - q).length() <= r`. -/
theorem distLE_iff (p q : V2) (r : ℚ) :
    distLE p q r = true ↔ Real.sqrt ((V2.sqDist p q : ℚ) : ℝ) ≤ (r : ℝ) := by
  have hnn : (0 : ℝ) ≤ ((V2.sqDist p q : ℚ) : ℝ) := by
    exact_mod_cast V2.sqDist_nonneg p q
  unfold distLE
  rw [decide_eq_true_eq]
  constructor
  · rintro ⟨hr, hd⟩
    have hr' : (0 : ℝ) ≤ (r : ℝ) := by exact_mod_cast hr
    have hd' : ((V2.sqDist p q : ℚ) : ℝ) ≤ (r : ℝ) * (r : ℝ) := by exact_mod_cast hd
    calc Real.sqrt ((V2.sqDist p q : ℚ) : ℝ)
        ≤ Real.sqrt ((r : ℝ) * (r : ℝ)) := Real.sqrt_le_sqrt hd'
      _ = (r : ℝ) := Real.sqrt_mul_self hr'
  · intro h
    have hr' : (0 : ℝ) ≤ (r : ℝ) := le_trans (Real.sqrt_nonneg _) h
    refine ⟨by exact_mod_cast hr', ?_⟩
    have h2 := pow_le_pow_left₀ (Real.sqrt_nonneg _) h 2
    rw [Real.sq_sqrt hnn, pow_two] at h2
    exact_mod_cast h2

/-- In-place sum `Vector.__iadd__` (lines 29-32) on dimension-agnostic
vectors: the loop runs over the indices of `self` and reads `other_vec[i]`;
when `other_vec` is shorter, the read raises `IndexError`, modelled by
`none`.  Components of a longer `other_vec` beyond `self`'s length are
ignored. -/
def iaddVec (v other_vec : List ℚ) : Option (List ℚ) :=
  if v.length ≤ other_vec.length then
    some (List.zipWith (fun x y => x + y) v other_vec)
  else none

/-- Positioned objects of `primitives.py` with their own stored state:
`Entity` (line 139, only `pos`), `Ray` (line 159, `pos` and `dir`),
`Rectangle` (line 228, `pos` and `size`) and `Circle` (line 350, `pos` and
`radius`).  Dimension-agnostic, as `Vector` is. -/
inductive Ent where
  | plain (pos : List ℚ)
  | ray (pos dir : List ℚ)
  | rect (pos size : List ℚ)
  | circle (pos : List ℚ) (radius : ℚ)
deriving DecidableEq

namespace Ent

/-- Stored field `pos` of an entity. -/
def pos : Ent → List ℚ
  | .plain p => p
  | .ray p _ => p
  | .rect p _ => p
  | .circle p _ => p

/-- Stored field `dir` of a `Ray`, absent for the other kinds. -/
def dirField : Ent → Option (List ℚ)
  | .ray _ d => some d
  | _ => none

/-- Stored field `size` of a `Rectangle`, absent for the other kinds. -/
def sizeField : Ent → Option (List ℚ)
  | .rect _ s => some s
  | _ => none

/-- Stored field `radius` of a `Circle`, absent for the other kinds. -/
def radiusField : Ent → Option ℚ
  | .circle _ r => some r
  | _ => none

/-- Method `Entity.move` (lines 153-154): `self.pos += offset`, which runs
`Vector.__iadd__` on the stored position and touches no other field. -/
def move (e : Ent) (offset : List ℚ) : Option Ent :=
  match e with
  | .plain p => (iaddVec p offset).map .plain
  | .ray p d => (iaddVec p offset).map fun q => .ray q d
  | .rect p s => (iaddVec p offset).map fun q => .rect q s
  | .circle p r => (iaddVec p offset).map fun q => .circle q r

end Ent

/-
Real-valued part of the embedding: `Vector.length` / `Vector.normalized` and
`Ray.angle` compute with square roots and `atan2`/`pi`, so they are embedded
over `ℝ` directly.
-/

namespace RVec

/-- Method `Vector.length` (lines 85-86): `sqrt(sum([x*x for x in self]))`. -/
noncomputable def length (v : List ℝ) : ℝ :=
  Real.sqrt ((v.map fun x => x * x).sum)

/-- Method `Vector.scaled` (lines 91-92). -/
def scaled (v : List ℝ) (scale : ℝ) : List ℝ :=
  v.map fun x => x * scale

/-- Method `Vector.copy` (lines 123-124): `Vector(*self)` builds a fresh
vector with the same components, so its value is the argument itself. -/
def copy (v : List ℝ) : List ℝ := v

/-- Method `Vector.normalized` (lines 94-98): divide every component by the
length when it is nonzero (`if length:` tests float truthiness), otherwise
return a copy.  The receiver is not mutated: both branches build a new
vector. -/
noncomputable def normalized (v : List ℝ) : List ℝ :=
  if length v ≠ 0 then v.map fun x => x / length v
  else copy v

end RVec

/-- Python's `math.atan2(y, x)`: the argument of the complex number
`x + y*i`, in `(-pi, pi]`. -/
noncomputable def atan2 (y x : ℝ) : ℝ := Complex.arg ⟨x, y⟩

/-- Class constant `Ray.RAD_DEGREES = 360 / math.tau` (line 161), where
`math.tau = 2*pi`. -/
noncomputable def RAD_DEGREES : ℝ := 360 / (2 * Real.pi)

/-- Python's implicit bool-to-number coercion (`False` is `0`, `True` is
`1`), as used by the expression `radians * self.RAD_DEGREES` on line 184. -/
def boolToReal (b : Bool) : ℝ := if b then 1 else 0

/-- Two-dimensional `Ray` (line 159): a position and a direction. -/
structure Ray where
  pos : ℝ × ℝ
  dir : ℝ × ℝ

/-- Method `Ray.angle` (lines 182-184).  The source returns
`rot if radians else radians * self.RAD_DEGREES`: the else-branch multiplies
the boolean flag `radians` (not `rot`) by the conversion constant. -/
noncomputable def Ray.angle (r : Ray) (radians : Bool) : ℝ :=
  let rot := atan2 r.dir.2 r.dir.1 + Real.pi
  if radians then rot else boolToReal radians * RAD_DEGREES

/-
Claim theorems.
-/

theorem if_ge_eq_max (x y : ℚ) : (if x ≥ y then x else y) = max x y := by
  split_ifs with h
  · exact (max_eq_left h).symm
  · exact (max_eq_right (le_of_not_le h)).symm

theorem if_lt_eq_min (x y : ℚ) : (if x < y then x else y) = min x y := by
  split_ifs with h
  · exact (min_eq_left h.le).symm
  · exact (min_eq_right (le_of_not_lt h)).symm

/-- C1: evaluating `Rectangle.offset` (with the unresolved name `Rect` read as
`Rectangle`; as written, the call raises `NameError`) at the rectangle with
`pos = (1,2)`, `size = (10,10)` and offsets `(3,4)`: the result's position is
`pos - (3,4) = (-2,-2)` but, because `fromPoints` subtracts its first
argument from its second, the result's size is `(15,16)`, not the claimed
`size + (3,4) = (13,14)`. -/
theorem offset_not_inflate_at_example :
    Rectangle.offset ⟨⟨1, 2⟩, ⟨10, 10⟩⟩ 3 4 = ⟨⟨-2, -2⟩, ⟨15, 16⟩⟩ ∧
    ((⟨10, 10⟩ : V2) + ⟨3, 4⟩) = (⟨13, 14⟩ : V2) ∧
    (⟨15, 16⟩ : V2) ≠ ⟨13, 14⟩ := by
  refine ⟨?_, ?_, ?_⟩ <;>
    norm_num [Rectangle.offset, Rectangle.fromPoints, V2.sub_def, V2.add_def,
      V2.mk.injEq, Rectangle.mk.injEq]

/-- C2: `Rectangle.intersects` returns true iff some corner of the receiver
is contained by the argument or some corner of the argument is contained by
the receiver; on the plus-shape pair `fromSides (-10) (-1) 10 1` and
`fromSides (-1) (-10) 1 10` it returns false even though the point `(0,0)`
lies in both rectangles. -/
theorem intersects_corner_characterization :
    (∀ a b : Rectangle, a.intersects b = true ↔
      ((∃ p ∈ a.corners, b.containsVec p = true) ∨
       (∃ p ∈ b.corners, a.containsVec p = true))) ∧
    (Rectangle.fromSides (-10) (-1) 10 1).intersects
      (Rectangle.fromSides (-1) (-10) 1 10) = false ∧
    (Rectangle.fromSides (-10) (-1) 10 1).containsVec ⟨0, 0⟩ = true ∧
    (Rectangle.fromSides (-1) (-10) 1 10).containsVec ⟨0, 0⟩ = true := by
  refine ⟨?_,
    by norm_num [Rectangle.intersects, Rectangle.corners, Rectangle.containsVec,
      Rectangle.fromSides, V2.add_def],
    by norm_num [Rectangle.containsVec, Rectangle.fromSides, V2.add_def],
    by norm_num [Rectangle.containsVec, Rectangle.fromSides, V2.add_def]⟩
  intro a b
  simp [Rectangle.intersects, List.any_eq_true]

/-- C10: `Rectangle.intersects` is symmetric — it is the disjunction of the
two corner scans, in either order. -/
theorem intersects_symm (a b : Rectangle) : a.intersects b = b.intersects a := by
  unfold Rectangle.intersects
  exact Bool.or_comm _ _

/-- C7: `Rectangle.intersect` returns `none` exactly when `intersects` is
false and otherwise the overlap rectangle from the max of left/top edges and
the min of right/bottom edges; in particular on `fromSides 0 0 10 10` and
`fromSides 5 5 15 15` it yields `fromSides 5 5 10 10`. -/
theorem intersect_overlap_spec :
    (∀ a b : Rectangle,
      a.intersect b =
        if a.intersects b then
          some (Rectangle.fromSides (max a.left b.left) (max a.top b.top)
                (min a.right b.right) (min a.bottom b.bottom))
        else none) ∧
    (Rectangle.fromSides 0 0 10 10).intersect (Rectangle.fromSides 5 5 15 15) =
      some (Rectangle.fromSides 5 5 10 10) := by
  refine ⟨?_,
    by norm_num [Rectangle.intersect, Rectangle.intersects, Rectangle.corners,
      Rectangle.containsVec, Rectangle.fromSides, Rectangle.left, Rectangle.top,
      Rectangle.right, Rectangle.bottom, V2.add_def]⟩
  intro a b
  unfold Rectangle.intersect
  rw [if_ge_eq_max, if_ge_eq_max, if_lt_eq_min, if_lt_eq_min]
  cases h : a.intersects b <;> simp [h]

/-- C8: both `contains` dispatchers return a boolean for every operand of
kind Vector, Rectangle, Circle or generic Entity, and raise (modelled by
`none`) exactly on any other kind. -/
theorem contains_supported_kinds (r : Rectangle) (c : Circle) (s : Shape) :
    (r.contains s).isSome = s.supported ∧ (c.contains s).isSome = s.supported := by
  cases s <;> simp [Rectangle.contains, Circle.contains, Shape.supported]

/-- C9: on an offset of the same dimension as the stored position,
`Entity.move` succeeds, replaces `pos` by the componentwise sum, and leaves a
`Ray`'s `dir`, a `Rectangle`'s `size` and a `Circle`'s `radius` unchanged. -/
theorem move_updates_only_pos (e : Ent) (offset : List ℚ)
    (h : offset.length = e.pos.length) :
    ∃ e', e.move offset = some e' ∧
      e'.pos = List.zipWith (fun x y => x + y) e.pos offset ∧
      e'.sizeField = e.sizeField ∧
      e'.radiusField = e.radiusField ∧
      e'.dirField = e.dirField := by
  cases e with
  | plain p =>
    have hle : p.length ≤ offset.length := le_of_eq h.symm
    exact ⟨.plain (List.zipWith (fun x y => x + y) p offset),
      by simp [Ent.move, iaddVec, hle], rfl, rfl, rfl, rfl⟩
  | ray p d =>
    have hle : p.length ≤ offset.length := le_of_eq h.symm
    exact ⟨.ray (List.zipWith (fun x y => x + y) p offset) d,
      by simp [Ent.move, iaddVec, hle], rfl, rfl, rfl, rfl⟩
  | rect p s =>
    have hle : p.length ≤ offset.length := le_of_eq h.symm
    exact ⟨.rect (List.zipWith (fun x y => x + y) p offset) s,
      by simp [Ent.move, iaddVec, hle], rfl, rfl, rfl, rfl⟩
  | circle p r =>
    have hle : p.length ≤ offset.length := le_of_eq h.symm
    exact ⟨.circle (List.zipWith (fun x y => x + y) p offset) r,
      by simp [Ent.move, iaddVec, hle], rfl, rfl, rfl, rfl⟩

/-- Witness for C9 at the rectangle entity `pos = [1,2]`, `size = [3,4]` and
offset `[10,20]`. -/
theorem move_updates_only_pos_witness :
    ∃ e', Ent.move (.rect [1, 2] [3, 4]) [10, 20] = some e' ∧
      e'.pos = List.zipWith (fun x y => x + y) (Ent.pos (.rect [1, 2] [3, 4])) [10, 20] ∧
      e'.sizeField = Ent.sizeField (.rect [1, 2] [3, 4]) ∧
      e'.radiusField = Ent.radiusField (.rect [1, 2] [3, 4]) ∧
      e'.dirField = Ent.dirField (.rect [1, 2] [3, 4]) :=
  move_updates_only_pos (.rect [1, 2] [3, 4]) [10, 20] (by decide)

/-- C4: a circle contains another iff its radius is strictly larger and the
center distance is strictly below the radius difference; when the radii are
equal or the receiver is smaller the result is false, so no circle contains
itself. -/
theorem circle_contains_circle_characterization (a b : Circle) :
    (a.contains (.circle b) = some true ↔
      b.radius < a.radius ∧
        Real.sqrt ((V2.sqDist a.pos b.pos : ℚ) : ℝ) <
          (a.radius : ℝ) - (b.radius : ℝ)) ∧
    (a.radius ≤ b.radius → a.contains (.circle b) = some false) ∧
    a.contains (.circle a) = some false := by
  refine ⟨?_, ?_, ?_⟩
  · show some (a.containsCircle b) = some true ↔ _
    rw [Option.some_inj]
    unfold Circle.containsCircle
    split_ifs with h
    · rw [distLT_iff]
      have hcast : (((a.radius - b.radius : ℚ)) : ℝ) = (a.radius : ℝ) - (b.radius : ℝ) := by
        push_cast
        ring
      rw [hcast]
      exact ⟨fun hd => ⟨h, hd⟩, fun hd => hd.2⟩
    · simp [h]
  · intro hle
    show some (a.containsCircle b) = some false
    unfold Circle.containsCircle
    rw [if_neg (not_lt.mpr hle)]
  · show some (a.containsCircle a) = some false
    unfold Circle.containsCircle
    rw [if_neg (lt_irrefl a.radius)]

/-- Witness for C4: the spec's example `Circle((0,0),10).contains(Circle((1,0),5))`
is true, the radius-swapped pair is false, and a circle never contains
itself. -/
theorem circle_contains_circle_characterization_witness :
    Circle.contains ⟨⟨0, 0⟩, 10⟩ (.circle ⟨⟨1, 0⟩, 5⟩) = some true ∧
    Circle.contains ⟨⟨0, 0⟩, 5⟩ (.circle ⟨⟨1, 0⟩, 10⟩) = some false ∧
    Circle.contains ⟨⟨0, 0⟩, 10⟩ (.circle ⟨⟨0, 0⟩, 10⟩) = some false := by
  refine ⟨?_, ?_, ?_⟩
  · refine (circle_contains_circle_characterization ⟨⟨0, 0⟩, 10⟩ ⟨⟨1, 0⟩, 5⟩).1.mpr
      ⟨by norm_num, ?_⟩
    have h1 : V2.sqDist ⟨0, 0⟩ ⟨1, 0⟩ = 1 := by norm_num [V2.sqDist]
    rw [h1, Rat.cast_one, Real.sqrt_one]
    norm_num
  · exact (circle_contains_circle_characterization ⟨⟨0, 0⟩, 5⟩ ⟨⟨1, 0⟩, 10⟩).2.1 (by norm_num)
  · exact (circle_contains_circle_characterization ⟨⟨0, 0⟩, 10⟩ ⟨⟨0, 0⟩, 10⟩).2.2

/-- C3: for a rectangle with non-negative size, `contains` on a circle is
true iff the rectangle contains the circle's center (inclusive bounds) and
every corner of the rectangle lies at distance at least the radius from the
center. -/
theorem rect_contains_circle_characterization (r : Rectangle) (c : Circle)
    (_hw : 0 ≤ r.size.x) (_hh : 0 ≤ r.size.y) :
    r.contains (.circle c) = some true ↔
      (r.containsVec c.pos = true ∧
        ∀ p ∈ r.corners,
          (c.radius : ℝ) ≤ Real.sqrt ((V2.sqDist c.pos p : ℚ) : ℝ)) := by
  have elt : ∀ p : V2, ((! distLT c.pos p c.radius) = true ↔
      (c.radius : ℝ) ≤ Real.sqrt ((V2.sqDist c.pos p : ℚ) : ℝ)) := by
    intro p
    rw [Bool.not_eq_true']
    constructor
    · intro hfalse
      by_contra hlt
      push_neg at hlt
      have := (distLT_iff c.pos p c.radius).mpr hlt
      rw [hfalse] at this
      exact Bool.false_ne_true this
    · intro hge
      cases hb : distLT c.pos p c.radius with
      | false => rfl
      | true =>
        have := (distLT_iff c.pos p c.radius).mp hb
        exact absurd this (not_lt.mpr hge)
  show some (r.containsCircle c) = some true ↔ _
  rw [Option.some_inj]
  unfold Rectangle.containsCircle
  cases hb : r.containsVec c.pos with
  | false => simp
  | true =>
    simp only [if_true, true_and]
    rw [List.all_eq_true]
    constructor
    · intro H
      exact fun p hp => (elt p).mp (H p hp)
    · intro H
      exact fun p hp => (elt p).mpr (H p hp)

/-- Witness for C3 at the square with corner `(0,0)` and size `(10,10)` and
the circle of radius 2 centered at `(5,5)`. -/
theorem rect_contains_circle_characterization_witness :
    (Rectangle.mk ⟨0, 0⟩ ⟨10, 10⟩).contains (.circle ⟨⟨5, 5⟩, 2⟩) = some true ↔
      ((Rectangle.mk ⟨0, 0⟩ ⟨10, 10⟩).containsVec ⟨5, 5⟩ = true ∧
        ∀ p ∈ (Rectangle.mk ⟨0, 0⟩ ⟨10, 10⟩).corners,
          ((2 : ℚ) : ℝ) ≤ Real.sqrt ((V2.sqDist ⟨5, 5⟩ p : ℚ) : ℝ)) :=
  rect_contains_circle_characterization ⟨⟨0, 0⟩, ⟨10, 10⟩⟩ ⟨⟨5, 5⟩, 2⟩
    (by norm_num) (by norm_num)

/-- C5: divergence of `Ray.angle` from the specified degree conversion.  On
the ray with direction `(1,0)`, the default call returns
`False * RAD_DEGREES = 0` (the else-branch of line 184 multiplies the flag
`radians`, not `rot`), while the value the claim specifies,
`(atan2(0,1) + pi) * 180/pi`, is `180`; the radians call does return
`atan2 + pi`. -/
theorem ray_angle_degrees_bug :
    Ray.angle ⟨(0, 0), (1, 0)⟩ false = 0 ∧
    Ray.angle ⟨(0, 0), (1, 0)⟩ true = atan2 0 1 + Real.pi ∧
    (atan2 0 1 + Real.pi) * RAD_DEGREES = 180 ∧
    (0 : ℝ) ≠ 180 := by
  refine ⟨?_, ?_, ?_, by norm_num⟩
  · simp [Ray.angle, boolToReal]
  · simp [Ray.angle]
  · have h0 : atan2 0 1 = 0 := by
      unfold atan2
      have h1 : (⟨1, 0⟩ : ℂ) = 1 := by
        apply Complex.ext <;> simp
      rw [h1, Complex.arg_one]
    rw [h0, zero_add]
    unfold RAD_DEGREES
    field_simp
    ring

theorem sum_sq_nonneg (v : List ℝ) : 0 ≤ (v.map fun x => x * x).sum := by
  apply List.sum_nonneg
  intro y hy
  obtain ⟨x, -, rfl⟩ := List.mem_map.mp hy
  exact mul_self_nonneg x

/-- C6: `Vector.normalized` never fails.  When the length is nonzero it
returns the vector scaled by the reciprocal length, and that result has
Euclidean length 1; when the vector is zero (equivalently, its length is
zero) it returns an unmodified copy, value-equal to the input — no division
happens on that branch. -/
theorem normalized_spec (v : List ℝ) :
    (RVec.length v ≠ 0 →
      RVec.normalized v = RVec.scaled v (1 / RVec.length v) ∧
      RVec.length (RVec.normalized v) = 1) ∧
    (RVec.length v = 0 → RVec.normalized v = RVec.copy v ∧ RVec.normalized v = v) ∧
    ((∀ x ∈ v, x = 0) → RVec.normalized v = v) := by
  have hS : 0 ≤ (v.map fun x => x * x).sum := sum_sq_nonneg v
  have hzero : ∀ h : RVec.length v = 0, RVec.normalized v = v := by
    intro h
    unfold RVec.normalized RVec.copy
    rw [if_neg (not_not_intro h)]
  refine ⟨?_, fun h => ⟨hzero h, hzero h⟩, ?_⟩
  · intro h
    constructor
    · unfold RVec.normalized RVec.scaled
      rw [if_pos h]
      have hfun : (fun x => x / RVec.length v) = fun x => x * (1 / RVec.length v) := by
        funext x
        rw [mul_one_div]
      rw [hfun]
    · have hSne : (v.map fun x => x * x).sum ≠ 0 := by
        intro h0
        apply h
        unfold RVec.length
        rw [h0, Real.sqrt_zero]
      unfold RVec.normalized
      rw [if_pos h]
      have hfun : ((fun x => x * x) ∘ fun x => x / RVec.length v) =
          fun x => (x * x) * (1 / (RVec.length v * RVec.length v)) := by
        funext x
        show (x / RVec.length v) * (x / RVec.length v) = _
        rw [div_mul_div_comm, div_eq_mul_one_div]
      have hLL : RVec.length v * RVec.length v = (v.map fun x => x * x).sum := by
        unfold RVec.length
        exact Real.mul_self_sqrt hS
      have houter : RVec.length (List.map (fun x => x / RVec.length v) v) =
          Real.sqrt (((List.map (fun x => x / RVec.length v) v).map fun x => x * x).sum) :=
        rfl
      rw [houter, List.map_map, hfun, List.sum_map_mul_right, hLL, mul_one_div,
        div_self hSne, Real.sqrt_one]
  · intro hv
    apply hzero
    unfold RVec.length
    have : (v.map fun x => x * x).sum = 0 := by
      apply List.sum_eq_zero
      intro y hy
      obtain ⟨x, hx, rfl⟩ := List.mem_map.mp hy
      rw [hv x hx, mul_zero]
    rw [this, Real.sqrt_zero]

/-- Witness for C6 at the vectors `[3,4]` (length 5) and `[0,0]` (the zero
vector). -/
theorem normalized_spec_witness :
    (RVec.normalized [(3 : ℝ), 4] = RVec.scaled [(3 : ℝ), 4] (1 / RVec.length [(3 : ℝ), 4]) ∧
      RVec.length (RVec.normalized [(3 : ℝ), 4]) = 1) ∧
    RVec.normalized [(0 : ℝ), 0] = [0, 0] := by
  constructor
  · apply (normalized_spec [(3 : ℝ), 4]).1
    have h25 : RVec.length [(3 : ℝ), 4] = 5 := by
      unfold RVec.length
      rw [show (([(3 : ℝ), 4].map fun x => x * x).sum) = 25 by norm_num,
        show (25 : ℝ) = 5 ^ 2 by norm_num, Real.sqrt_sq (by norm_num)]
    rw [h25]
    norm_num
  · exact (normalized_spec [(0 : ℝ), 0]).2.2 (by norm_num)

end DJLib
